import Mathlib

/-!
Shallow embedding of the chess-puzzle trainer
(`src/crates/web/static/js/puzzles.js`).

Modelling conventions:
* squares, move codes and FEN strings are `String`s, as in the source;
* the JavaScript object `state.pieces` is a total function
  `String → Option Char` (`delete` / absent key = `none`; assigning
  `undefined` is also `none`, which agrees with every read the source
  performs on the object);
* the mutable `state` session object is the `PuzzleState` record, and each
  event handler is a pure state transformer; animation callbacks and
  `setTimeout` continuations are modelled as having run to completion, so
  a handler returns the settled state (network fetches such as
  `loadContinuation` are external I/O and are not part of the state
  transition);
* JavaScript numbers in this file are only ever used as small integers
  (array indices, pixel deltas), so they are modelled as `Int`/`Nat`;
* `String.prototype.toLowerCase`/`toUpperCase` are modelled with the ASCII
  `Char.toLower`/`Char.toUpper`, which agree with JavaScript on the ASCII
  move-code and piece-letter alphabet the program uses.
-/

namespace Puzzles

/-- `const FILES = ['a', ..., 'h']` from the source. -/
def FILES : List Char := ['a', 'b', 'c', 'd', 'e', 'f', 'g', 'h']

/-- `const RANKS = ['1', ..., '8']` from the source. -/
def RANKS : List Char := ['1', '2', '3', '4', '5', '6', '7', '8']

/-- JavaScript `Array.prototype.indexOf`: index of `c` in `l`, `-1` when absent. -/
def indexOfJS (l : List Char) (c : Char) : Int :=
  match l.findIdx? (fun x => x = c) with
  | some i => (i : Int)
  | none => -1

/-- JavaScript string indexing `s[i]`.  Out-of-range access yields
`undefined`; `'?'` is not a file, rank or piece letter, so every comparison
the source makes on the result agrees with the `undefined` behaviour. -/
def charAt (s : String) (i : Nat) : Char := s.data.getD i '?'

/-- Functional update of the piece map: `state.pieces[k] = v` (with
`v = none` for `delete state.pieces[k]`). -/
def update (ps : String → Option Char) (k : String) (v : Option Char) :
    String → Option Char :=
  fun s => if s = k then v else ps s

/-- `piece === piece.toUpperCase()` — the source's white-piece test. -/
def isWhitePiece (c : Char) : Bool := c = c.toUpper

/-- JavaScript `String.prototype.toLowerCase` (ASCII fragment). -/
def toLowerJS (s : String) : String := String.mk (s.data.map Char.toLower)

/-- JavaScript `String.prototype.includes` with a single-character needle
(`state.castling.includes('K')` etc.). -/
def containsJS (s : String) (c : Char) : Bool := s.data.contains c

/-- Remove the first occurrence of `c` from `l` (helper for `replaceFirst`). -/
def removeFirst : List Char → Char → List Char
  | [], _ => []
  | x :: xs, c => if x = c then xs else x :: removeFirst xs c

/-- JavaScript `String.prototype.replace(c, '')` with a one-character
pattern: removes only the FIRST occurrence of `c`. -/
def replaceFirst (s : String) (c : Char) : String := String.mk (removeFirst s.data c)

/-- `FILES[f] + RANKS[r]` as the source writes it for `Int` indices.  An
out-of-range JavaScript array access yields `undefined`, and string
concatenation with `undefined` produces the text `"undefined"`. -/
def atIdx (f r : Int) : String :=
  String.mk
    ((if 0 ≤ f ∧ f < 8 then [FILES.getD f.toNat '?'] else "undefined".data) ++
     (if 0 ≤ r ∧ r < 8 then [RANKS.getD r.toNat '?'] else "undefined".data))

/-- A well-formed board square: two characters, file `a`–`h`, rank `1`–`8`. -/
def wfSquareB (s : String) : Bool :=
  match s.data with
  | [f, r] => FILES.contains f && RANKS.contains r
  | _ => false

/-! ### FEN parsing (`parseFen`) -/

/-- JavaScript `String.prototype.split` with a single-character separator
(`fen.split(' ')`, `position.split('/')`).  Always returns at least one
(possibly empty) piece. -/
def splitCh (sep : Char) : List Char → List (List Char)
  | [] => [[]]
  | c :: cs =>
    match splitCh sep cs with
    | [] => [[]]
    | h :: t => if c = sep then [] :: h :: t else (c :: h) :: t

/-- The record returned by `parseFen`. -/
structure FenResult where
  pieces : String → Option Char
  turn : String
  castling : String

/-- `FILES[fileIdx] + rank` inside the `parseFen` row loop.  `fileIdx` can
exceed `7` when a row encodes more than 8 files; JavaScript then produces
the key `"undefined" + rank`. -/
def atFile (i : Nat) (rank : Char) : String :=
  String.mk ((if i < 8 then [FILES.getD i '?'] else "undefined".data) ++ [rank])

/-- The `for (const char of row)` loop of `parseFen`: digits advance
`fileIdx`, any other character is stored as a piece at the current file. -/
def parseRowGo (rank : Char) : List Char → Nat → (String → Option Char) →
    (String → Option Char)
  | [], _, ps => ps
  | c :: cs, fileIdx, ps =>
    if '1' ≤ c ∧ c ≤ '8' then
      parseRowGo rank cs (fileIdx + (c.toNat - '0'.toNat)) ps
    else
      parseRowGo rank cs (fileIdx + 1) (update ps (atFile fileIdx rank) (some c))

/-- The outer `for (let rankIdx = 0; rankIdx < 8; rankIdx++)` loop of
`parseFen`.  When `rows[rankIdx]` is missing, JavaScript's `for..of` over
`undefined` throws a `TypeError`; that crash is modelled as `none`. -/
def parseRanks (rows : List (List Char)) :
    List Nat → (String → Option Char) → Option (String → Option Char)
  | [], ps => some ps
  | i :: is, ps =>
    match rows.get? i with
    | none => none
    | some row => parseRanks rows is (parseRowGo (RANKS.getD (7 - i) '?') row 0 ps)

/-- `parseFen` from the source.  `none` models the uncaught `TypeError`
thrown when the position field has fewer than 8 rows; in every other case
the source returns a result without any validation. -/
def parseFen (fen : String) : Option FenResult :=
  let parts := splitCh ' ' fen.data
  let position := parts.getD 0 []
  let turn := match parts.get? 1 with
    | some t => if t = [] then ['w'] else t
    | none => ['w']
  let castling : List Char := match parts.get? 2 with
    | some t => if t = [] then ['-'] else t
    | none => ['-']
  let rows := splitCh '/' position
  match parseRanks rows [0, 1, 2, 3, 4, 5, 6, 7] (fun _ => none) with
  | none => none
  | some pieces =>
    some { pieces := pieces
           turn := if turn = ['w'] then "white" else "black"
           castling := if castling = ['-'] then "" else String.mk castling }

/-! ### Move generation (`getPseudoLegalMoves`) -/

/-- The `addMove` closure: push `FILES[f] + RANKS[r]` when in bounds and not
occupied by a same-colour piece. -/
def addMove (ps : String → Option Char) (isWhite : Bool) (f r : Int) : List String :=
  if 0 ≤ f ∧ f < 8 ∧ 0 ≤ r ∧ r < 8 then
    let target := atIdx f r
    match ps target with
    | none => [target]
    | some tp => if isWhite ≠ isWhitePiece tp then [target] else []
  else []

/-- The `addSlide` closure's `while` loop, starting at `(f, r)` and stepping
by `(df, dr)`.  The loop leaves the 8×8 board after at most 8 unit steps, so
the fuel of 16 used at every call site is never exhausted. -/
def addSlide (ps : String → Option Char) (isWhite : Bool) (df dr : Int) :
    Int → Int → Nat → List String
  | _, _, 0 => []
  | f, r, fuel + 1 =>
    if 0 ≤ f ∧ f < 8 ∧ 0 ≤ r ∧ r < 8 then
      let target := atIdx f r
      match ps target with
      | none => target :: addSlide ps isWhite df dr (f + df) (r + dr) fuel
      | some tp => if isWhite ≠ isWhitePiece tp then [target] else []
    else []

/-- One pawn-capture candidate (`for (const df of [-1, 1])` body). -/
def pawnCap (ps : String → Option Char) (isWhite : Bool)
    (fileIdx fwdRank df : Int) : List String :=
  if 0 ≤ fileIdx + df ∧ fileIdx + df < 8 then
    let cap := atIdx (fileIdx + df) fwdRank
    match ps cap with
    | some cp => if isWhite ≠ isWhitePiece cp then [cap] else []
    | none => []
  else []

/-- The `case 'P'` branch of `getPseudoLegalMoves`. -/
def pawnMoves (ps : String → Option Char) (isWhite : Bool)
    (fileIdx rankIdx : Int) : List String :=
  let dir : Int := if isWhite then 1 else -1
  let startRank : Int := if isWhite then 1 else 6
  let fwdRank := rankIdx + dir
  if 0 ≤ fwdRank ∧ fwdRank < 8 then
    let fwd := atIdx fileIdx fwdRank
    (if ps fwd = none then
        fwd ::
          (if rankIdx = startRank then
            let fwd2 := atIdx fileIdx (rankIdx + 2 * dir)
            if ps fwd2 = none then [fwd2] else []
          else [])
      else []) ++
    (pawnCap ps isWhite fileIdx fwdRank (-1) ++ pawnCap ps isWhite fileIdx fwdRank 1)
  else []

/-- The castling block of the `case 'K'` branch: destinations are added when
the right is held and the in-between squares are empty — no rook-presence
and no attack check. -/
def castleMoves (ps : String → Option Char) (castling : String) (isWhite : Bool)
    (file rank : Char) : List String :=
  if isWhite = true ∧ rank = '1' ∧ file = 'e' then
    (if containsJS castling 'K' = true ∧ ps "f1" = none ∧ ps "g1" = none then
      ["g1"] else []) ++
    (if containsJS castling 'Q' = true ∧ ps "d1" = none ∧ ps "c1" = none ∧
        ps "b1" = none then ["c1"] else [])
  else if isWhite = false ∧ rank = '8' ∧ file = 'e' then
    (if containsJS castling 'k' = true ∧ ps "f8" = none ∧ ps "g8" = none then
      ["g8"] else []) ++
    (if containsJS castling 'q' = true ∧ ps "d8" = none ∧ ps "c8" = none ∧
        ps "b8" = none then ["c8"] else [])
  else []

/-- Knight offsets, literally from the source. -/
def knightOffs : List (Int × Int) :=
  [(-2, -1), (-2, 1), (-1, -2), (-1, 2), (1, -2), (1, 2), (2, -1), (2, 1)]

/-- King offsets, literally from the source. -/
def kingOffs : List (Int × Int) :=
  [(-1, -1), (-1, 0), (-1, 1), (0, -1), (0, 1), (1, -1), (1, 0), (1, 1)]

/-- Bishop ray directions, literally from the source. -/
def bishopDirs : List (Int × Int) := [(-1, -1), (-1, 1), (1, -1), (1, 1)]

/-- Rook ray directions, literally from the source. -/
def rookDirs : List (Int × Int) := [(-1, 0), (1, 0), (0, -1), (0, 1)]

/-- Queen ray directions, literally from the source. -/
def queenDirs : List (Int × Int) :=
  [(-1, -1), (-1, 1), (1, -1), (1, 1), (-1, 0), (1, 0), (0, -1), (0, 1)]

/-- `getPseudoLegalMoves(square)` reading `state.pieces` and
`state.castling`. -/
def getPseudoLegalMoves (ps : String → Option Char) (castling : String)
    (square : String) : List String :=
  match ps square with
  | none => []
  | some piece =>
    let file := charAt square 0
    let rank := charAt square 1
    let fileIdx := indexOfJS FILES file
    let rankIdx := indexOfJS RANKS rank
    let isWhite := isWhitePiece piece
    let t := piece.toUpper
    if t = 'P' then pawnMoves ps isWhite fileIdx rankIdx
    else if t = 'N' then
      knightOffs.flatMap (fun d => addMove ps isWhite (fileIdx + d.1) (rankIdx + d.2))
    else if t = 'B' then
      bishopDirs.flatMap
        (fun d => addSlide ps isWhite d.1 d.2 (fileIdx + d.1) (rankIdx + d.2) 16)
    else if t = 'R' then
      rookDirs.flatMap
        (fun d => addSlide ps isWhite d.1 d.2 (fileIdx + d.1) (rankIdx + d.2) 16)
    else if t = 'Q' then
      queenDirs.flatMap
        (fun d => addSlide ps isWhite d.1 d.2 (fileIdx + d.1) (rankIdx + d.2) 16)
    else if t = 'K' then
      (kingOffs.flatMap (fun d => addMove ps isWhite (fileIdx + d.1) (rankIdx + d.2))) ++
      castleMoves ps castling isWhite file rank
    else []

/-- Parse a FEN and generate from a square (the `loadPuzzle` →
`getPseudoLegalMoves` composition); an unparseable FEN yields no moves. -/
def genFromFen (fen square : String) : List String :=
  match parseFen fen with
  | some b => getPseudoLegalMoves b.pieces b.castling square
  | none => []

/-! ### Session state and move handling -/

/-- The mutable `state` object (fields the move handling reads or writes;
`state.puzzle.best_move` is flattened into `bestMove`, perspective and DOM
handles are presentation-only and omitted). -/
structure PuzzleState where
  pieces : String → Option Char
  turn : String
  castling : String
  lastMove : Option (String × String)
  selectedSquare : Option String
  solved : Bool
  animating : Bool
  dragging : Option String
  dragStartX : Int
  dragStartY : Int
  hasDragged : Bool
  currentHoverSquare : Option String
  totalSolved : Nat
  totalAttempts : Nat
  bestMove : String

/-- `isOwnPiece(square)`. -/
def isOwnPiece (s : PuzzleState) (square : String) : Bool :=
  match s.pieces square with
  | none => false
  | some p => decide (s.turn = "white") == isWhitePiece p

/-- `isCastlingMove(from, to)`: the piece on `from` is a king and the file
distance is exactly two. -/
def isCastlingMove (ps : String → Option Char) (frm dst : String) : Bool :=
  match ps frm with
  | none => false
  | some p =>
    if p.toUpper ≠ 'K' then false
    else decide ((indexOfJS FILES (charAt dst 0) - indexOfJS FILES (charAt frm 0)).natAbs = 2)

/-- `executeCastling(kingFrom, kingTo)`: moves the king, relocates the
content of the same-rank edge square (h-file for a `g` destination,
a-file otherwise), and strips the moving side's castling letters with
first-occurrence `replace`. -/
def executeCastling (s : PuzzleState) (kingFrom kingTo : String) : PuzzleState :=
  let rank := charAt kingFrom 1
  let ps0 := update s.pieces kingTo (s.pieces kingFrom)
  let ps1 := update ps0 kingFrom none
  let ps2 :=
    if charAt kingTo 0 = 'g' then
      let psf := update ps1 (String.mk ['f', rank]) (ps1 (String.mk ['h', rank]))
      update psf (String.mk ['h', rank]) none
    else
      let psd := update ps1 (String.mk ['d', rank]) (ps1 (String.mk ['a', rank]))
      update psd (String.mk ['a', rank]) none
  let cast :=
    if s.turn = "white" then replaceFirst (replaceFirst s.castling 'K') 'Q'
    else replaceFirst (replaceFirst s.castling 'k') 'q'
  { s with pieces := ps2, castling := cast }

/-- The correctness judgement inside `attemptMove`:
`bestMove === moveBase || (bestMove.startsWith(moveBase) && bestMove.length === 5)`
after both codes are lowercased. -/
def judgeCorrect (bestMoveRaw frm dst : String) : Bool :=
  let bestMove := toLowerJS bestMoveRaw
  let moveBase := toLowerJS (frm ++ dst)
  decide (bestMove = moveBase) ||
    (moveBase.data.isPrefixOf bestMove.data && decide (bestMove.length = 5))

/-- Body of `attemptMove` after the `animating` guard, with the animation
callbacks and the 150 ms timeout run to completion (`loadContinuation` is an
external fetch and not part of the transition).  Note the correct branch
never touches `turn`. -/
def attemptMoveApplied (s : PuzzleState) (frm dst : String) : PuzzleState :=
  let s1 := { s with totalAttempts := s.totalAttempts + 1 }
  if judgeCorrect s.bestMove frm dst then
    let s2 :=
      if isCastlingMove s1.pieces frm dst then executeCastling s1 frm dst
      else
        let ps := update s1.pieces dst (s1.pieces frm)
        let psd := update ps frm none
        let bm := toLowerJS s.bestMove
        let psp :=
          if bm.length = 5 then
            update psd dst
              (some (if s1.turn = "white" then (charAt bm 4).toUpper
                     else (charAt bm 4).toLower))
          else psd
        { s1 with pieces := psp }
    { s2 with lastMove := some (frm, dst), animating := false,
              solved := true, totalSolved := s2.totalSolved + 1 }
  else s1

/-- `attemptMove(from, to)` together with the list of attempts it actually
judges (empty when the `animating` guard drops the call). -/
def attemptMoveE (s : PuzzleState) (frm dst : String) :
    PuzzleState × List (String × String) :=
  if s.animating then (s, [])
  else (attemptMoveApplied s frm dst, [(frm, dst)])

/-- `attemptMove(from, to)`, state part. -/
def attemptMove (s : PuzzleState) (frm dst : String) : PuzzleState :=
  (attemptMoveE s frm dst).1

/-- `executeMove(uciMove)` (continuation playback), run to completion.
Unlike `attemptMove`, it flips `turn`. -/
def executeMove (s : PuzzleState) (uci : String) : PuzzleState :=
  let frm := String.mk (uci.data.take 2)
  let dst := String.mk ((uci.data.drop 2).take 2)
  let promo := if uci.length = 5 then some (charAt uci 4) else none
  let s1 :=
    if isCastlingMove s.pieces frm dst then executeCastling s frm dst
    else
      let ps := update s.pieces dst (s.pieces frm)
      let psd := update ps frm none
      let psp := match promo with
        | some p =>
          update psd dst (some (if s.turn = "white" then p.toUpper else p.toLower))
        | none => psd
      { s with pieces := psp }
  { s1 with turn := if s1.turn = "white" then "black" else "white",
            lastMove := some (frm, dst) }

/-- `selectSquare(square)` together with the attempts it judges. -/
def selectSquareE (s : PuzzleState) (square : String) :
    PuzzleState × List (String × String) :=
  if s.animating || s.solved then (s, [])
  else
    match s.selectedSquare with
    | none =>
      if (s.pieces square).isSome && isOwnPiece s square then
        ({ s with selectedSquare := some square }, [])
      else (s, [])
    | some sel =>
      if square = sel then ({ s with selectedSquare := none }, [])
      else if (s.pieces square).isSome && isOwnPiece s square then
        ({ s with selectedSquare := some square }, [])
      else attemptMoveE { s with selectedSquare := none } sel square

/-- `onMouseDown`, with the DOM hit-test result passed in as
`square : Option String`. -/
def onMouseDown (s : PuzzleState) (square : Option String) (x y : Int) : PuzzleState :=
  if s.animating || s.solved then s
  else
    match square with
    | none => s
    | some sq =>
      if isOwnPiece s sq then
        { s with dragging := some sq, dragStartX := x, dragStartY := y,
                 hasDragged := false }
      else s

/-- `onMouseMove`, with the hit-tested hover square passed in.  The pixel
threshold `Math.sqrt(dx*dx + dy*dy) > 3` is stated on squared distances;
the drag ghost element is presentation-only. -/
def onMouseMove (s : PuzzleState) (x y : Int) (hover : Option String) : PuzzleState :=
  match s.dragging with
  | none => s
  | some drag =>
    let s1 :=
      if !s.hasDragged &&
          decide ((x - s.dragStartX) * (x - s.dragStartX) +
                  (y - s.dragStartY) * (y - s.dragStartY) > 3 * 3) then
        { s with hasDragged := true, selectedSquare := some drag }
      else s
    if s1.hasDragged then { s1 with currentHoverSquare := hover } else s1

/-- `onMouseUp`, with the hit-tested drop square passed in.  The visual
cleanup (hover classes, ghost element, opacity) has no model content beyond
clearing `currentHoverSquare`. -/
def onMouseUpE (s : PuzzleState) (drop : Option String) :
    PuzzleState × List (String × String) :=
  let wasDragging := s.dragging
  let hadDragged := s.hasDragged
  let s1 := { s with currentHoverSquare := none, dragging := none, hasDragged := false }
  match wasDragging, drop with
  | some wd, some ds =>
    if hadDragged then
      if ds ≠ wd then attemptMoveE { s1 with selectedSquare := none } wd ds
      else ({ s1 with selectedSquare := none }, [])
    else selectSquareE s1 wd
  | some wd, none =>
    if hadDragged then ({ s1 with selectedSquare := none }, [])
    else selectSquareE s1 wd
  | none, some ds => selectSquareE s1 ds
  | none, none => ({ s1 with selectedSquare := none }, [])

/-- An input event delivered to the controller, with DOM hit-test results
already resolved. -/
inductive Event where
  | select (square : String)
  | mouseDown (square : Option String) (x y : Int)
  | mouseMove (x y : Int) (hover : Option String)
  | mouseUp (drop : Option String)
  | attempt (frm dst : String)

/-- Dispatch one input event; returns the new state and the judged attempts. -/
def step (s : PuzzleState) : Event → PuzzleState × List (String × String)
  | .select sq => selectSquareE s sq
  | .mouseDown sq x y => (onMouseDown s sq x y, [])
  | .mouseMove x y hover => (onMouseMove s x y hover, [])
  | .mouseUp drop => onMouseUpE s drop
  | .attempt frm dst => attemptMoveE s frm dst

/-- Deliver a sequence of input events. -/
def run (s : PuzzleState) : List Event → PuzzleState × List (String × String)
  | [] => (s, [])
  | e :: es =>
    let p := step s e
    let q := run p.1 es
    (q.1, p.2 ++ q.2)

/-- An empty session in its initial configuration (`loadPuzzle` reset),
used to build concrete scenarios. -/
def baseState : PuzzleState where
  pieces := fun _ => none
  turn := "white"
  castling := ""
  lastMove := none
  selectedSquare := none
  solved := false
  animating := false
  dragging := none
  dragStartX := 0
  dragStartY := 0
  hasDragged := false
  currentHoverSquare := none
  totalSolved := 0
  totalAttempts := 0
  bestMove := ""

end Puzzles

namespace Puzzles

/-! ### Basic string and map lemmas -/

theorem strEta (s : String) : String.mk s.data = s := by cases s; rfl

theorem strMkEq {l₁ l₂ : List Char} : String.mk l₁ = String.mk l₂ ↔ l₁ = l₂ := by
  constructor
  · intro h; cases h; rfl
  · intro h; rw [h]

theorem strDataAppend (a b : String) : (a ++ b).data = a.data ++ b.data := by
  cases a; cases b; rfl

theorem strMkAppend (l₁ l₂ : List Char) :
    String.mk l₁ ++ String.mk l₂ = String.mk (l₁ ++ l₂) := rfl

theorem mkPair_ne_of_file {a b : Char} (h : a ≠ b) (r r' : Char) :
    String.mk [a, r] ≠ String.mk [b, r'] := by
  intro he
  rw [strMkEq] at he
  injection he with h1 _
  exact h h1

theorem update_self (ps : String → Option Char) (k : String) (v : Option Char) :
    update ps k v k = v := by simp [update]

theorem update_ne (ps : String → Option Char) {k s : String} (v : Option Char)
    (h : s ≠ k) : update ps k v s = ps s := by simp [update, h]

theorem toLowerJS_append (a b : String) :
    toLowerJS (a ++ b) = toLowerJS a ++ toLowerJS b := by
  simp only [toLowerJS, strDataAppend, List.map_append, strMkAppend]

/-! ### Square lemmas -/

theorem contains_iff_mem {l : List Char} {c : Char} : l.contains c = true ↔ c ∈ l := by
  simp [List.contains, List.elem_iff]

theorem wfSquareB_iff {s : String} :
    wfSquareB s = true ↔ ∃ f r, s.data = [f, r] ∧ f ∈ FILES ∧ r ∈ RANKS := by
  unfold wfSquareB
  rcases hd : s.data with _ | ⟨f, _ | ⟨r, _ | ⟨x, xs⟩⟩⟩ <;>
    simp [contains_iff_mem]
  constructor
  · rintro ⟨h1, h2⟩; exact ⟨f, r, ⟨rfl, rfl⟩, h1, h2⟩
  · rintro ⟨f', r', ⟨rfl, rfl⟩, h1, h2⟩; exact ⟨h1, h2⟩

theorem files_index {c : Char} (hc : c ∈ FILES) :
    0 ≤ indexOfJS FILES c ∧ indexOfJS FILES c < 8 ∧
      FILES.getD (indexOfJS FILES c).toNat '?' = c := by
  fin_cases hc <;> decide

theorem ranks_index {c : Char} (hc : c ∈ RANKS) :
    0 ≤ indexOfJS RANKS c ∧ indexOfJS RANKS c < 8 ∧
      RANKS.getD (indexOfJS RANKS c).toNat '?' = c := by
  fin_cases hc <;> decide

theorem atIdx_eq {f r : Int} (hf0 : 0 ≤ f) (hf8 : f < 8) (hr0 : 0 ≤ r) (hr8 : r < 8) :
    atIdx f r = String.mk [FILES.getD f.toNat '?', RANKS.getD r.toNat '?'] := by
  unfold atIdx
  rw [if_pos ⟨hf0, hf8⟩, if_pos ⟨hr0, hr8⟩]
  rfl

theorem wf_atIdx {f r : Int} (hf0 : 0 ≤ f) (hf8 : f < 8) (hr0 : 0 ≤ r) (hr8 : r < 8) :
    wfSquareB (atIdx f r) = true := by
  rw [atIdx_eq hf0 hf8 hr0 hr8]
  rw [wfSquareB_iff]
  refine ⟨_, _, rfl, ?_, ?_⟩
  · have h : ∀ i < 8, FILES.getD i '?' ∈ FILES := by decide
    exact h f.toNat (by omega)
  · have h : ∀ i < 8, RANKS.getD i '?' ∈ RANKS := by decide
    exact h r.toNat (by omega)

theorem atIdx_inj {f r f' r' : Int}
    (hf0 : 0 ≤ f) (hf8 : f < 8) (hr0 : 0 ≤ r) (hr8 : r < 8)
    (hf0' : 0 ≤ f') (hf8' : f' < 8) (hr0' : 0 ≤ r') (hr8' : r' < 8) :
    atIdx f r = atIdx f' r' ↔ f = f' ∧ r = r' := by
  rw [atIdx_eq hf0 hf8 hr0 hr8, atIdx_eq hf0' hf8' hr0' hr8', strMkEq]
  constructor
  · intro h
    injection h with h1 h2
    injection h2 with h2 _
    have hfiles : ∀ i < 8, ∀ j < 8, FILES.getD i '?' = FILES.getD j '?' → i = j := by
      decide
    have hranks : ∀ i < 8, ∀ j < 8, RANKS.getD i '?' = RANKS.getD j '?' → i = j := by
      decide
    have e1 := hfiles f.toNat (by omega) f'.toNat (by omega) h1
    have e2 := hranks r.toNat (by omega) r'.toNat (by omega) h2
    omega
  · rintro ⟨rfl, rfl⟩; rfl

theorem wf_square_eq_atIdx {s : String} {fc rc : Char} (hd : s.data = [fc, rc])
    (hfc : fc ∈ FILES) (hrc : rc ∈ RANKS) :
    s = atIdx (indexOfJS FILES fc) (indexOfJS RANKS rc) := by
  obtain ⟨hf0, hf8, hfg⟩ := files_index hfc
  obtain ⟨hr0, hr8, hrg⟩ := ranks_index hrc
  rw [atIdx_eq hf0 hf8 hr0 hr8, hfg, hrg, ← hd, strEta]

theorem toLowerJS_wf_square {q : String} (h : wfSquareB q = true) : toLowerJS q = q := by
  obtain ⟨f, r, hd, hf, hr⟩ := wfSquareB_iff.mp h
  have hfl : f.toLower = f := by fin_cases hf <;> decide
  have hrl : r.toLower = r := by fin_cases hr <;> decide
  have hmap : q.data.map Char.toLower = q.data := by
    rw [hd]; simp [hfl, hrl]
  rw [toLowerJS, hmap, strEta]

end Puzzles

namespace Puzzles

/-! ### Concrete scenario states -/

/-- White pawn on e2, puzzle answer `e2e4`, white to move. -/
def c1State : PuzzleState :=
  { baseState with pieces := fun sq => if sq = "e2" then some 'P' else none,
                   bestMove := "e2e4" }

/-- White king on e1, both white castling rights, NO rook anywhere. -/
def noRookState : PuzzleState :=
  { baseState with pieces := fun sq => if sq = "e1" then some 'K' else none,
                   castling := "KQkq" }

/-- C1: after the correct attempt `(e2, e4)` on best move `"e2e4"` the move is
applied (pawn on e4, e2 emptied, puzzle solved, attempt counted) but
`turn` is STILL `"white"`: `attemptMove` never flips the side to move, so
the spec's "turn flips to black" fails on the code. -/
theorem attemptMove_e2e4_does_not_flip_turn :
    (attemptMove c1State "e2" "e4").solved = true ∧
    (attemptMove c1State "e2" "e4").pieces "e4" = some 'P' ∧
    (attemptMove c1State "e2" "e4").pieces "e2" = none ∧
    (attemptMove c1State "e2" "e4").totalAttempts = 1 ∧
    (attemptMove c1State "e2" "e4").totalSolved = 1 ∧
    (attemptMove c1State "e2" "e4").turn = "white" := by
  refine ⟨?_, ?_, ?_, ?_, ?_, ?_⟩ <;> decide

/-- C2 counterexample: the position `"7/8/8/8/8/8/8/8"` has a first row
summing to 7 files, yet `parseFen` succeeds and returns a board state with
`turn = white` — it raises no `MalformedPosition` error. -/
theorem parseFen_short_row_returns_state :
    (parseFen "7/8/8/8/8/8/8/8 w KQkq -").isSome = true ∧
    (parseFen "7/8/8/8/8/8/8/8 w KQkq -").map FenResult.turn = some "white" ∧
    (parseFen "7/8/8/8/8/8/8/8 w KQkq -").map FenResult.castling = some "KQkq" := by
  refine ⟨?_, ?_, ?_⟩ <;> rfl

/-- Helper for the amended C2: the rank loop succeeds whenever every wanted
row index is present. -/
theorem parseRanks_isSome {rows : List (List Char)} :
    ∀ (is : List Nat) (ps : String → Option Char), (∀ i ∈ is, i < rows.length) →
      (parseRanks rows is ps).isSome = true := by
  intro is
  induction is with
  | nil => intro ps _; rfl
  | cons i is ih =>
    intro ps h
    have hi : i < rows.length := h i (by simp)
    have hrow : rows.get? i = some (rows.get ⟨i, hi⟩) := List.get?_eq_get hi
    rw [parseRanks, hrow]
    exact ih _ (fun j hj => h j (by simp [hj]))

/-- C2 amended: `parseFen` performs no row-sum validation and has no failure
path other than the crash on a missing row: whenever the position field
splits into at least 8 rows, it returns a board state — including for every
row that does not sum to 8 files. -/
theorem parseFen_no_row_validation :
    ∀ fen : String, 8 ≤ (splitCh '/' ((splitCh ' ' fen.data).getD 0 [])).length →
      (parseFen fen).isSome = true := by
  intro fen h
  have h8 : ∀ i ∈ [0, 1, 2, 3, 4, 5, 6, 7],
      i < (splitCh '/' ((splitCh ' ' fen.data).getD 0 [])).length := by
    intro i hi
    fin_cases hi <;> omega
  have := parseRanks_isSome [0, 1, 2, 3, 4, 5, 6, 7] (fun _ => none) h8
  obtain ⟨ps, hps⟩ := Option.isSome_iff_exists.mp this
  simp only [parseFen, hps]
  rfl

/-- Witness for the amended C2, at the row-sum-7 input of the
counterexample. -/
theorem parseFen_no_row_validation_witness :
    (parseFen "7/8/8/8/8/8/8/8 w KQkq -").isSome = true :=
  parseFen_no_row_validation "7/8/8/8/8/8/8/8 w KQkq -" (by decide)

/-- C5: an attempt that is judged (the animating guard is down) and found
Incorrect changes nothing except `totalAttempts`: the returned state is the
input state with only the counter bumped. -/
theorem attemptMove_incorrect_is_frame :
    ∀ (s : PuzzleState) (frm dst : String), s.animating = false →
      judgeCorrect s.bestMove frm dst = false →
      attemptMove s frm dst = { s with totalAttempts := s.totalAttempts + 1 } := by
  intro s frm dst ha hj
  simp [attemptMove, attemptMoveE, ha, attemptMoveApplied, hj]

/-- Witness for C5: the wrong attempt `(e2, e3)` against best move `"e2e4"`
leaves the board state untouched. -/
theorem attemptMove_incorrect_is_frame_witness :
    attemptMove c1State "e2" "e3" =
      { c1State with totalAttempts := c1State.totalAttempts + 1 } :=
  attemptMove_incorrect_is_frame c1State "e2" "e3" rfl (by decide)

/-- C8: the verdict of `attemptMove`'s comparison depends only on the
lowercased best-move code, so any two best-move codes with the same
lowercase form — e.g. `"E2E4"` and `"e2e4"` — judge every attempt
identically. -/
theorem judgeCorrect_case_insensitive :
    (∀ frm dst bm₁ bm₂ : String, toLowerJS bm₁ = toLowerJS bm₂ →
      judgeCorrect bm₁ frm dst = judgeCorrect bm₂ frm dst) ∧
    judgeCorrect "E2E4" "e2" "e4" = true ∧
    judgeCorrect "e2e4" "e2" "e4" = true := by
  refine ⟨?_, by decide, by decide⟩
  intro frm dst bm₁ bm₂ h
  simp only [judgeCorrect, h]

/-- Witness for C8 at the attempt `(e7, e5)` and the codes `"E2E4"`,
`"e2e4"`. -/
theorem judgeCorrect_case_insensitive_witness :
    judgeCorrect "E2E4" "e7" "e5" = judgeCorrect "e2e4" "e7" "e5" :=
  judgeCorrect_case_insensitive.1 "e7" "e5" "E2E4" "e2e4" (by decide)

/-- C9: the generator adds the castle destination with no rook check: with a
lone white king on e1 and castling string `"KQkq"`, `g1` is generated even
though f1, g1 and h1 (indeed the whole rank) hold no rook. -/
theorem castle_added_without_rook :
    "g1" ∈ getPseudoLegalMoves noRookState.pieces "KQkq" "e1" ∧
    containsJS "KQkq" 'K' = true ∧
    noRookState.pieces "e1" = some 'K' ∧
    noRookState.pieces "f1" = none ∧
    noRookState.pieces "g1" = none ∧
    noRookState.pieces "h1" = none ∧
    noRookState.pieces "a1" = none := by
  refine ⟨?_, ?_, ?_, ?_, ?_, ?_, ?_⟩ <;> decide

/-- C4 counterexample: the move `e1 → g1` with a king on e1 and NO rook on
h1 is a two-file king move (so the code treats it as castling), yet the
transition relocates no rook at all: f1 is still empty afterwards.  The
claim's "relocates exactly one rook of the mover's color" fails on this
state. -/
theorem executeCastling_without_rook_moves_no_rook :
    isCastlingMove noRookState.pieces "e1" "g1" = true ∧
    "g1" ∈ getPseudoLegalMoves noRookState.pieces noRookState.castling "e1" ∧
    (executeCastling noRookState "e1" "g1").pieces "g1" = some 'K' ∧
    (executeCastling noRookState "e1" "g1").pieces "f1" = none ∧
    (executeCastling noRookState "e1" "g1").pieces "h1" = none ∧
    (executeCastling noRookState "e1" "g1").pieces "a1" = none ∧
    (executeCastling noRookState "e1" "g1").pieces "d1" = none := by
  refine ⟨?_, ?_, ?_, ?_, ?_, ?_, ?_⟩ <;> decide

end Puzzles

namespace Puzzles

/-- C3: for square-shaped attempts and a lowercase best-move code, the
verdict is Correct exactly when the 4-character code `from ++ to` equals the
best-move code, or the best-move code has length 5 and its first four
characters equal `from ++ to`; and concretely `"e7e8q"` is Correct for
`(e7, e8)` and not for `(e7, d8)`. -/
theorem judgeCorrect_iff :
    (∀ frm dst bm : String, wfSquareB frm = true → wfSquareB dst = true →
        toLowerJS bm = bm →
        (judgeCorrect bm frm dst = true ↔
          (bm = frm ++ dst ∨ (bm.length = 5 ∧ bm.data.take 4 = (frm ++ dst).data)))) ∧
    judgeCorrect "e7e8q" "e7" "e8" = true ∧
    judgeCorrect "e7e8q" "e7" "d8" = false := by
  refine ⟨?_, by decide, by decide⟩
  intro frm dst bm hw1 hw2 hbm
  have hmb : toLowerJS (frm ++ dst) = frm ++ dst := by
    rw [toLowerJS_append, toLowerJS_wf_square hw1, toLowerJS_wf_square hw2]
  have hlen : (frm ++ dst).data.length = 4 := by
    obtain ⟨f1, r1, hd1, _, _⟩ := wfSquareB_iff.mp hw1
    obtain ⟨f2, r2, hd2, _, _⟩ := wfSquareB_iff.mp hw2
    rw [strDataAppend, hd1, hd2]
    rfl
  simp only [judgeCorrect, hbm, hmb, Bool.or_eq_true, Bool.and_eq_true,
    decide_eq_true_eq]
  constructor
  · rintro (h | ⟨hp, h5⟩)
    · exact Or.inl h
    · refine Or.inr ⟨h5, ?_⟩
      have h1 := (List.isPrefixOf_iff_prefix).mp hp
      have h2 := (List.prefix_iff_eq_take).mp h1
      rw [hlen] at h2
      exact h2.symm
  · rintro (h | ⟨h5, ht⟩)
    · exact Or.inl h
    · refine Or.inr ⟨?_, h5⟩
      rw [List.isPrefixOf_iff_prefix, List.prefix_iff_eq_take, hlen]
      exact ht.symm

/-- Witness for C3 at the spec's own scenario: best move `"e2e4"`, attempt
`(e2, e4)`. -/
theorem judgeCorrect_iff_witness :
    judgeCorrect "e2e4" "e2" "e4" = true ↔
      (("e2e4" : String) = "e2" ++ "e4" ∨
        (("e2e4" : String).length = 5 ∧
          ("e2e4" : String).data.take 4 = (("e2" : String) ++ "e4").data)) :=
  judgeCorrect_iff.1 "e2" "e4" "e2e4" (by decide) (by decide) (by decide)

/-- Lone white king on e1 (castling squares empty). -/
def c7WhitePieces : String → Option Char := fun sq => if sq = "e1" then some 'K' else none

/-- Lone black king on e8 (castling squares empty). -/
def c7BlackPieces : String → Option Char := fun sq => if sq = "e8" then some 'k' else none

/-- C7: on the board parsed from `"r3k2r/8/8/8/8/8/8/R3K2R w KQkq -"` the
generator on e1 yields both castle destinations g1 and c1; and in general,
whenever the king sits on its home square, the relevant right is in the
castling string and the in-between squares are empty, the two-file castle
destination is generated (all four colour/side cases). -/
theorem castle_destinations_generated :
    ("g1" ∈ genFromFen "r3k2r/8/8/8/8/8/8/R3K2R w KQkq -" "e1" ∧
     "c1" ∈ genFromFen "r3k2r/8/8/8/8/8/8/R3K2R w KQkq -" "e1") ∧
    (∀ (ps : String → Option Char) (cast : String),
      ps "e1" = some 'K' → containsJS cast 'K' = true →
      ps "f1" = none → ps "g1" = none →
      "g1" ∈ getPseudoLegalMoves ps cast "e1") ∧
    (∀ (ps : String → Option Char) (cast : String),
      ps "e1" = some 'K' → containsJS cast 'Q' = true →
      ps "d1" = none → ps "c1" = none → ps "b1" = none →
      "c1" ∈ getPseudoLegalMoves ps cast "e1") ∧
    (∀ (ps : String → Option Char) (cast : String),
      ps "e8" = some 'k' → containsJS cast 'k' = true →
      ps "f8" = none → ps "g8" = none →
      "g8" ∈ getPseudoLegalMoves ps cast "e8") ∧
    (∀ (ps : String → Option Char) (cast : String),
      ps "e8" = some 'k' → containsJS cast 'q' = true →
      ps "d8" = none → ps "c8" = none → ps "b8" = none →
      "c8" ∈ getPseudoLegalMoves ps cast "e8") := by
  refine ⟨⟨by decide, by decide⟩, ?_, ?_, ?_, ?_⟩
  · intro ps cast h1 h2 h3 h4
    simp only [getPseudoLegalMoves, h1]
    refine List.mem_append_right _ ?_
    simp [castleMoves, charAt, isWhitePiece, h2, h3, h4]
  · intro ps cast h1 h2 h3 h4 h5
    simp only [getPseudoLegalMoves, h1]
    refine List.mem_append_right _ ?_
    simp [castleMoves, charAt, isWhitePiece, h2, h3, h4, h5]
  · intro ps cast h1 h2 h3 h4
    simp only [getPseudoLegalMoves, h1]
    refine List.mem_append_right _ ?_
    simp [castleMoves, charAt, isWhitePiece, h2, h3, h4]
  · intro ps cast h1 h2 h3 h4 h5
    simp only [getPseudoLegalMoves, h1]
    refine List.mem_append_right _ ?_
    simp [castleMoves, charAt, isWhitePiece, h2, h3, h4, h5]

/-- Witness for C7's quantified cases on lone-king boards. -/
theorem castle_destinations_generated_witness :
    "g1" ∈ getPseudoLegalMoves c7WhitePieces "KQkq" "e1" ∧
    "c1" ∈ getPseudoLegalMoves c7WhitePieces "KQkq" "e1" ∧
    "g8" ∈ getPseudoLegalMoves c7BlackPieces "KQkq" "e8" ∧
    "c8" ∈ getPseudoLegalMoves c7BlackPieces "KQkq" "e8" :=
  ⟨castle_destinations_generated.2.1 c7WhitePieces "KQkq" (by decide) (by decide)
      (by decide) (by decide),
   castle_destinations_generated.2.2.1 c7WhitePieces "KQkq" (by decide) (by decide)
      (by decide) (by decide) (by decide),
   castle_destinations_generated.2.2.2.1 c7BlackPieces "KQkq" (by decide) (by decide)
      (by decide) (by decide),
   castle_destinations_generated.2.2.2.2 c7BlackPieces "KQkq" (by decide) (by decide)
      (by decide) (by decide) (by decide)⟩

end Puzzles

namespace Puzzles

/-- The reachable locked state the post-solve window produces: a selection
made during the 150 ms gap between `afterMove` and the solved-timeout
survives into `playContinuation`'s `animating = true` lock. -/
def c6LockedState : PuzzleState :=
  { baseState with animating := true, solved := true, selectedSquare := some "e2" }

/-- C6 counterexample: in the locked state with a surviving selection, a
pointer-up with no drop square still executes `state.selectedSquare = null`
— a selection change delivered while `animating = true` (no attempt is
judged by it). -/
theorem mouseUp_clears_selection_while_animating :
    c6LockedState.animating = true ∧
    c6LockedState.selectedSquare = some "e2" ∧
    (step c6LockedState (Event.mouseUp none)).1.selectedSquare = none ∧
    (step c6LockedState (Event.mouseUp none)).2 = [] := by
  refine ⟨rfl, rfl, ?_, ?_⟩ <;> rfl

/-- One step under the lock, with no assumption on selection or drag state:
any single input event judges no attempt, keeps `animating` raised and
leaves the board state (pieces, turn, castling, lastMove) unchanged. -/
theorem step_animating_frame (s : PuzzleState) (e : Event)
    (ha : s.animating = true) :
    (step s e).2 = [] ∧
    (step s e).1.animating = true ∧
    (step s e).1.pieces = s.pieces ∧
    (step s e).1.turn = s.turn ∧
    (step s e).1.castling = s.castling ∧
    (step s e).1.lastMove = s.lastMove := by
  cases e with
  | select sq => simp [step, selectSquareE, ha]
  | mouseDown sq x y => simp [step, onMouseDown, ha]
  | mouseMove x y hover =>
    cases hdr : s.dragging with
    | none => simp [step, onMouseMove, hdr, ha]
    | some drag =>
      simp only [step, onMouseMove, hdr]
      split
      · split <;> simp [ha]
      · split <;> simp [ha]
  | mouseUp drop =>
    cases hdr : s.dragging with
    | none =>
      cases drop with
      | none => simp [step, onMouseUpE, hdr, selectSquareE, attemptMoveE, ha]
      | some ds => simp [step, onMouseUpE, hdr, selectSquareE, attemptMoveE, ha]
    | some wd =>
      cases drop with
      | none =>
        simp only [step, onMouseUpE, hdr]
        split <;> simp [selectSquareE, attemptMoveE, ha]
      | some ds =>
        simp only [step, onMouseUpE, hdr]
        split
        · split <;> simp [selectSquareE, attemptMoveE, ha]
        · simp [selectSquareE, attemptMoveE, ha]
  | attempt frm dst => simp [step, attemptMoveE, ha]

/-- C6 amended: while `animating` is true — with NO assumption on the
selection or drag bookkeeping — every sequence of input events judges zero
move attempts and leaves the board state (pieces, turn, castling rights,
lastMove) unchanged.  (Selection/drag fields are not invariant: see
`mouseUp_clears_selection_while_animating`.) -/
theorem animating_blocks_attempts :
    ∀ (s : PuzzleState) (evs : List Event), s.animating = true →
      (run s evs).2 = [] ∧
      (run s evs).1.pieces = s.pieces ∧
      (run s evs).1.turn = s.turn ∧
      (run s evs).1.castling = s.castling ∧
      (run s evs).1.lastMove = s.lastMove := by
  intro s evs
  induction evs generalizing s with
  | nil => intro _; exact ⟨rfl, rfl, rfl, rfl, rfl⟩
  | cons e es ih =>
    intro ha
    obtain ⟨hout, hanim, hp, htn, hcs, hlm⟩ := step_animating_frame s e ha
    obtain ⟨iout, ip, itn, ics, ilm⟩ := ih (step s e).1 hanim
    simp only [run]
    exact ⟨by rw [hout, iout]; rfl, ip.trans hp, itn.trans htn,
      ics.trans hcs, ilm.trans hlm⟩

/-- Witness for the amended C6: a five-event burst (click, drag gesture,
bare pointer-up, direct attempt) delivered in the locked state judges no
attempt and leaves the board state unchanged. -/
theorem animating_blocks_attempts_witness :
    (run c6LockedState
      [Event.select "e2", Event.mouseDown (some "e2") 0 0,
       Event.mouseMove 9 9 (some "e4"), Event.mouseUp none,
       Event.attempt "e2" "e4"]).2 = [] ∧
    (run c6LockedState
      [Event.select "e2", Event.mouseDown (some "e2") 0 0,
       Event.mouseMove 9 9 (some "e4"), Event.mouseUp none,
       Event.attempt "e2" "e4"]).1.pieces = c6LockedState.pieces ∧
    (run c6LockedState
      [Event.select "e2", Event.mouseDown (some "e2") 0 0,
       Event.mouseMove 9 9 (some "e4"), Event.mouseUp none,
       Event.attempt "e2" "e4"]).1.turn = c6LockedState.turn ∧
    (run c6LockedState
      [Event.select "e2", Event.mouseDown (some "e2") 0 0,
       Event.mouseMove 9 9 (some "e4"), Event.mouseUp none,
       Event.attempt "e2" "e4"]).1.castling = c6LockedState.castling ∧
    (run c6LockedState
      [Event.select "e2", Event.mouseDown (some "e2") 0 0,
       Event.mouseMove 9 9 (some "e4"), Event.mouseUp none,
       Event.attempt "e2" "e4"]).1.lastMove = c6LockedState.lastMove :=
  animating_blocks_attempts c6LockedState
    [Event.select "e2", Event.mouseDown (some "e2") 0 0,
     Event.mouseMove 9 9 (some "e4"), Event.mouseUp none,
     Event.attempt "e2" "e4"] rfl

end Puzzles

namespace Puzzles

/-! ### Castling-rights string lemmas -/

theorem removeFirst_count_self (l : List Char) (c : Char) :
    (removeFirst l c).count c = l.count c - 1 := by
  induction l with
  | nil => rfl
  | cons x xs ih =>
    by_cases hx : x = c
    · subst hx
      rw [removeFirst, if_pos rfl, List.count_cons_self]
      omega
    · rw [removeFirst, if_neg hx, List.count_cons_of_ne (Ne.symm hx),
        List.count_cons_of_ne (Ne.symm hx), ih]

theorem removeFirst_count_ne {d c : Char} (h : d ≠ c) (l : List Char) :
    (removeFirst l c).count d = l.count d := by
  induction l with
  | nil => rfl
  | cons x xs ih =>
    by_cases hx : x = c
    · subst hx
      rw [removeFirst, if_pos rfl, List.count_cons_of_ne h]
    · by_cases hd : d = x
      · subst hd
        rw [removeFirst, if_neg hx, List.count_cons_self, List.count_cons_self, ih]
      · rw [removeFirst, if_neg hx, List.count_cons_of_ne hd,
          List.count_cons_of_ne hd, ih]

/-! ### The squares named by `executeCastling` (`'f' + rank` etc.) -/

/-- The king's home square `'e' + rank`. -/
def homeSquare (r : Char) : String := String.mk ['e', r]

/-- The castle destination square (`g`-file kingside, `c`-file queenside). -/
def castleDst (kingside : Bool) (r : Char) : String :=
  String.mk [if kingside then 'g' else 'c', r]

/-- The board-edge square read by `executeCastling` (`h`-file kingside,
`a`-file queenside). -/
def castleEdge (kingside : Bool) (r : Char) : String :=
  String.mk [if kingside then 'h' else 'a', r]

/-- The square the edge content is written to (`f`-file kingside, `d`-file
queenside). -/
def castleRookDst (kingside : Bool) (r : Char) : String :=
  String.mk [if kingside then 'f' else 'd', r]

/-- Pointwise description of the kingside `executeCastling` piece update. -/
theorem executeCastling_kingside (s : PuzzleState) (r : Char) :
    (executeCastling s (String.mk ['e', r]) (String.mk ['g', r])).pieces
        (String.mk ['g', r]) = s.pieces (String.mk ['e', r]) ∧
    (executeCastling s (String.mk ['e', r]) (String.mk ['g', r])).pieces
        (String.mk ['e', r]) = none ∧
    (executeCastling s (String.mk ['e', r]) (String.mk ['g', r])).pieces
        (String.mk ['f', r]) = s.pieces (String.mk ['h', r]) ∧
    (executeCastling s (String.mk ['e', r]) (String.mk ['g', r])).pieces
        (String.mk ['h', r]) = none ∧
    (∀ sq, sq ≠ String.mk ['e', r] → sq ≠ String.mk ['g', r] →
      sq ≠ String.mk ['h', r] → sq ≠ String.mk ['f', r] →
      (executeCastling s (String.mk ['e', r]) (String.mk ['g', r])).pieces sq =
        s.pieces sq) ∧
    (executeCastling s (String.mk ['e', r]) (String.mk ['g', r])).castling =
      (if s.turn = "white" then replaceFirst (replaceFirst s.castling 'K') 'Q'
       else replaceFirst (replaceFirst s.castling 'k') 'q') ∧
    (executeCastling s (String.mk ['e', r]) (String.mk ['g', r])).turn = s.turn ∧
    (executeCastling s (String.mk ['e', r]) (String.mk ['g', r])).lastMove =
      s.lastMove := by
  have hGE : String.mk ['g', r] ≠ String.mk ['e', r] := mkPair_ne_of_file (by decide) r r
  have hGF : String.mk ['g', r] ≠ String.mk ['f', r] := mkPair_ne_of_file (by decide) r r
  have hGH : String.mk ['g', r] ≠ String.mk ['h', r] := mkPair_ne_of_file (by decide) r r
  have hEF : String.mk ['e', r] ≠ String.mk ['f', r] := mkPair_ne_of_file (by decide) r r
  have hEH : String.mk ['e', r] ≠ String.mk ['h', r] := mkPair_ne_of_file (by decide) r r
  have hFH : String.mk ['f', r] ≠ String.mk ['h', r] := mkPair_ne_of_file (by decide) r r
  have hHE : String.mk ['h', r] ≠ String.mk ['e', r] := mkPair_ne_of_file (by decide) r r
  have hHG : String.mk ['h', r] ≠ String.mk ['g', r] := mkPair_ne_of_file (by decide) r r
  refine ⟨?_, ?_, ?_, ?_, ?_, ?_, ?_, ?_⟩
  · simp only [executeCastling, charAt, List.getD_cons_zero, List.getD_cons_succ,
      reduceIte]
    rw [update_ne _ _ hGH, update_ne _ _ hGF, update_ne _ _ hGE, update_self]
  · simp only [executeCastling, charAt, List.getD_cons_zero, List.getD_cons_succ,
      reduceIte]
    rw [update_ne _ _ hEH, update_ne _ _ hEF, update_self]
  · simp only [executeCastling, charAt, List.getD_cons_zero, List.getD_cons_succ,
      reduceIte]
    rw [update_ne _ _ hFH, update_self, update_ne _ _ hHE, update_ne _ _ hHG]
  · simp only [executeCastling, charAt, List.getD_cons_zero, List.getD_cons_succ,
      reduceIte]
    rw [update_self]
  · intro sq n1 n2 n3 n4
    simp only [executeCastling, charAt, List.getD_cons_zero, List.getD_cons_succ,
      reduceIte]
    rw [update_ne _ _ n3, update_ne _ _ n4, update_ne _ _ n1, update_ne _ _ n2]
  · simp only [executeCastling, charAt, List.getD_cons_zero, List.getD_cons_succ,
      reduceIte]
  · simp only [executeCastling]
  · simp only [executeCastling]

/-- Pointwise description of the queenside `executeCastling` piece update. -/
theorem executeCastling_queenside (s : PuzzleState) (r : Char) :
    (executeCastling s (String.mk ['e', r]) (String.mk ['c', r])).pieces
        (String.mk ['c', r]) = s.pieces (String.mk ['e', r]) ∧
    (executeCastling s (String.mk ['e', r]) (String.mk ['c', r])).pieces
        (String.mk ['e', r]) = none ∧
    (executeCastling s (String.mk ['e', r]) (String.mk ['c', r])).pieces
        (String.mk ['d', r]) = s.pieces (String.mk ['a', r]) ∧
    (executeCastling s (String.mk ['e', r]) (String.mk ['c', r])).pieces
        (String.mk ['a', r]) = none ∧
    (∀ sq, sq ≠ String.mk ['e', r] → sq ≠ String.mk ['c', r] →
      sq ≠ String.mk ['a', r] → sq ≠ String.mk ['d', r] →
      (executeCastling s (String.mk ['e', r]) (String.mk ['c', r])).pieces sq =
        s.pieces sq) ∧
    (executeCastling s (String.mk ['e', r]) (String.mk ['c', r])).castling =
      (if s.turn = "white" then replaceFirst (replaceFirst s.castling 'K') 'Q'
       else replaceFirst (replaceFirst s.castling 'k') 'q') ∧
    (executeCastling s (String.mk ['e', r]) (String.mk ['c', r])).turn = s.turn ∧
    (executeCastling s (String.mk ['e', r]) (String.mk ['c', r])).lastMove =
      s.lastMove := by
  have hCE : String.mk ['c', r] ≠ String.mk ['e', r] := mkPair_ne_of_file (by decide) r r
  have hCD : String.mk ['c', r] ≠ String.mk ['d', r] := mkPair_ne_of_file (by decide) r r
  have hCA : String.mk ['c', r] ≠ String.mk ['a', r] := mkPair_ne_of_file (by decide) r r
  have hED : String.mk ['e', r] ≠ String.mk ['d', r] := mkPair_ne_of_file (by decide) r r
  have hEA : String.mk ['e', r] ≠ String.mk ['a', r] := mkPair_ne_of_file (by decide) r r
  have hDA : String.mk ['d', r] ≠ String.mk ['a', r] := mkPair_ne_of_file (by decide) r r
  have hAE : String.mk ['a', r] ≠ String.mk ['e', r] := mkPair_ne_of_file (by decide) r r
  have hAC : String.mk ['a', r] ≠ String.mk ['c', r] := mkPair_ne_of_file (by decide) r r
  refine ⟨?_, ?_, ?_, ?_, ?_, ?_, ?_, ?_⟩
  · simp only [executeCastling, charAt, List.getD_cons_zero, List.getD_cons_succ,
      reduceIte]
    rw [if_neg (show ¬('c' : Char) = 'g' by decide)]
    rw [update_ne _ _ hCA, update_ne _ _ hCD, update_ne _ _ hCE, update_self]
  · simp only [executeCastling, charAt, List.getD_cons_zero, List.getD_cons_succ,
      reduceIte]
    rw [if_neg (show ¬('c' : Char) = 'g' by decide)]
    rw [update_ne _ _ hEA, update_ne _ _ hED, update_self]
  · simp only [executeCastling, charAt, List.getD_cons_zero, List.getD_cons_succ,
      reduceIte]
    rw [if_neg (show ¬('c' : Char) = 'g' by decide)]
    rw [update_ne _ _ hDA, update_self, update_ne _ _ hAE, update_ne _ _ hAC]
  · simp only [executeCastling, charAt, List.getD_cons_zero, List.getD_cons_succ,
      reduceIte]
    rw [if_neg (show ¬('c' : Char) = 'g' by decide)]
    rw [update_self]
  · intro sq n1 n2 n3 n4
    simp only [executeCastling, charAt, List.getD_cons_zero, List.getD_cons_succ,
      reduceIte]
    rw [if_neg (show ¬('c' : Char) = 'g' by decide)]
    rw [update_ne _ _ n3, update_ne _ _ n4, update_ne _ _ n1, update_ne _ _ n2]
  · simp only [executeCastling, charAt, List.getD_cons_zero, List.getD_cons_succ,
      reduceIte]
  · simp only [executeCastling]
  · simp only [executeCastling]

end Puzzles

namespace Puzzles

/-- C4 amended: on a proper castle configuration — the mover's king on its
`e`-file home square, a rook of the mover's colour on the same-rank edge
square, `turn` naming the mover, and a castling string counting each of the
mover's right letters at most once — the two-file king move is detected as
castling, and the single transition relocates exactly that one rook (edge
square emptied, `f`/`d` square filled, every other square besides the king's
untouched), removes both of the mover's castling letters, and leaves the
opposite colour's letters, `turn` and `lastMove` unchanged. -/
theorem executeCastling_spec :
    ∀ (s : PuzzleState) (white kingside : Bool) (r : Char),
      s.turn = (if white then "white" else "black") →
      s.pieces (homeSquare r) = some (if white then 'K' else 'k') →
      s.pieces (castleEdge kingside r) = some (if white then 'R' else 'r') →
      s.castling.data.count (if white then 'K' else 'k') ≤ 1 →
      s.castling.data.count (if white then 'Q' else 'q') ≤ 1 →
      isCastlingMove s.pieces (homeSquare r) (castleDst kingside r) = true ∧
      (executeCastling s (homeSquare r) (castleDst kingside r)).pieces
          (castleDst kingside r) = some (if white then 'K' else 'k') ∧
      (executeCastling s (homeSquare r) (castleDst kingside r)).pieces
          (homeSquare r) = none ∧
      (executeCastling s (homeSquare r) (castleDst kingside r)).pieces
          (castleRookDst kingside r) = some (if white then 'R' else 'r') ∧
      (executeCastling s (homeSquare r) (castleDst kingside r)).pieces
          (castleEdge kingside r) = none ∧
      (∀ sq, sq ≠ homeSquare r → sq ≠ castleDst kingside r →
        sq ≠ castleEdge kingside r → sq ≠ castleRookDst kingside r →
        (executeCastling s (homeSquare r) (castleDst kingside r)).pieces sq =
          s.pieces sq) ∧
      (executeCastling s (homeSquare r)
          (castleDst kingside r)).castling.data.count
          (if white then 'K' else 'k') = 0 ∧
      (executeCastling s (homeSquare r)
          (castleDst kingside r)).castling.data.count
          (if white then 'Q' else 'q') = 0 ∧
      (executeCastling s (homeSquare r)
          (castleDst kingside r)).castling.data.count
          (if white then 'k' else 'K') =
        s.castling.data.count (if white then 'k' else 'K') ∧
      (executeCastling s (homeSquare r)
          (castleDst kingside r)).castling.data.count
          (if white then 'q' else 'Q') =
        s.castling.data.count (if white then 'q' else 'Q') ∧
      (executeCastling s (homeSquare r) (castleDst kingside r)).turn = s.turn ∧
      (executeCastling s (homeSquare r) (castleDst kingside r)).lastMove =
        s.lastMove := by
  intro s white kingside r ht hk hrook hc1 hc2
  cases white <;> cases kingside <;>
    simp only [Bool.false_eq_true, if_true, if_false, homeSquare, castleDst,
      castleEdge, castleRookDst, reduceIte] at ht hk hrook hc1 hc2 ⊢
  -- white = false, kingside = false (queenside, black)
  · obtain ⟨e1, e2, e3, e4, e5, e6, e7, e8⟩ := executeCastling_queenside s r
    refine ⟨?_, ?_, ?_, ?_, ?_, ?_, ?_, ?_, ?_, ?_, e7, e8⟩
    · simp only [isCastlingMove, hk, charAt, List.getD_cons_zero,
        List.getD_cons_succ]
      rfl
    · rw [e1, hk]
    · exact e2
    · rw [e3, hrook]
    · exact e4
    · exact e5
    · rw [e6, ht, if_neg (show ¬("black" : String) = "white" by decide)]
      simp only [replaceFirst]
      rw [removeFirst_count_ne (show ('k' : Char) ≠ 'q' by decide),
        removeFirst_count_self]
      omega
    · rw [e6, ht, if_neg (show ¬("black" : String) = "white" by decide)]
      simp only [replaceFirst]
      rw [removeFirst_count_self,
        removeFirst_count_ne (show ('q' : Char) ≠ 'k' by decide)]
      omega
    · rw [e6, ht, if_neg (show ¬("black" : String) = "white" by decide)]
      simp only [replaceFirst]
      rw [removeFirst_count_ne (show ('K' : Char) ≠ 'q' by decide),
        removeFirst_count_ne (show ('K' : Char) ≠ 'k' by decide)]
    · rw [e6, ht, if_neg (show ¬("black" : String) = "white" by decide)]
      simp only [replaceFirst]
      rw [removeFirst_count_ne (show ('Q' : Char) ≠ 'q' by decide),
        removeFirst_count_ne (show ('Q' : Char) ≠ 'k' by decide)]
  -- white = false, kingside = true (kingside, black)
  · obtain ⟨e1, e2, e3, e4, e5, e6, e7, e8⟩ := executeCastling_kingside s r
    refine ⟨?_, ?_, ?_, ?_, ?_, ?_, ?_, ?_, ?_, ?_, e7, e8⟩
    · simp only [isCastlingMove, hk, charAt, List.getD_cons_zero,
        List.getD_cons_succ]
      rfl
    · rw [e1, hk]
    · exact e2
    · rw [e3, hrook]
    · exact e4
    · exact e5
    · rw [e6, ht, if_neg (show ¬("black" : String) = "white" by decide)]
      simp only [replaceFirst]
      rw [removeFirst_count_ne (show ('k' : Char) ≠ 'q' by decide),
        removeFirst_count_self]
      omega
    · rw [e6, ht, if_neg (show ¬("black" : String) = "white" by decide)]
      simp only [replaceFirst]
      rw [removeFirst_count_self,
        removeFirst_count_ne (show ('q' : Char) ≠ 'k' by decide)]
      omega
    · rw [e6, ht, if_neg (show ¬("black" : String) = "white" by decide)]
      simp only [replaceFirst]
      rw [removeFirst_count_ne (show ('K' : Char) ≠ 'q' by decide),
        removeFirst_count_ne (show ('K' : Char) ≠ 'k' by decide)]
    · rw [e6, ht, if_neg (show ¬("black" : String) = "white" by decide)]
      simp only [replaceFirst]
      rw [removeFirst_count_ne (show ('Q' : Char) ≠ 'q' by decide),
        removeFirst_count_ne (show ('Q' : Char) ≠ 'k' by decide)]
  -- white = true, kingside = false (queenside, white)
  · obtain ⟨e1, e2, e3, e4, e5, e6, e7, e8⟩ := executeCastling_queenside s r
    refine ⟨?_, ?_, ?_, ?_, ?_, ?_, ?_, ?_, ?_, ?_, e7, e8⟩
    · simp only [isCastlingMove, hk, charAt, List.getD_cons_zero,
        List.getD_cons_succ]
      rfl
    · rw [e1, hk]
    · exact e2
    · rw [e3, hrook]
    · exact e4
    · exact e5
    · rw [e6, ht, if_pos rfl]
      simp only [replaceFirst]
      rw [removeFirst_count_ne (show ('K' : Char) ≠ 'Q' by decide),
        removeFirst_count_self]
      omega
    · rw [e6, ht, if_pos rfl]
      simp only [replaceFirst]
      rw [removeFirst_count_self,
        removeFirst_count_ne (show ('Q' : Char) ≠ 'K' by decide)]
      omega
    · rw [e6, ht, if_pos rfl]
      simp only [replaceFirst]
      rw [removeFirst_count_ne (show ('k' : Char) ≠ 'Q' by decide),
        removeFirst_count_ne (show ('k' : Char) ≠ 'K' by decide)]
    · rw [e6, ht, if_pos rfl]
      simp only [replaceFirst]
      rw [removeFirst_count_ne (show ('q' : Char) ≠ 'Q' by decide),
        removeFirst_count_ne (show ('q' : Char) ≠ 'K' by decide)]
  -- white = true, kingside = true (kingside, white)
  · obtain ⟨e1, e2, e3, e4, e5, e6, e7, e8⟩ := executeCastling_kingside s r
    refine ⟨?_, ?_, ?_, ?_, ?_, ?_, ?_, ?_, ?_, ?_, e7, e8⟩
    · simp only [isCastlingMove, hk, charAt, List.getD_cons_zero,
        List.getD_cons_succ]
      rfl
    · rw [e1, hk]
    · exact e2
    · rw [e3, hrook]
    · exact e4
    · exact e5
    · rw [e6, ht, if_pos rfl]
      simp only [replaceFirst]
      rw [removeFirst_count_ne (show ('K' : Char) ≠ 'Q' by decide),
        removeFirst_count_self]
      omega
    · rw [e6, ht, if_pos rfl]
      simp only [replaceFirst]
      rw [removeFirst_count_self,
        removeFirst_count_ne (show ('Q' : Char) ≠ 'K' by decide)]
      omega
    · rw [e6, ht, if_pos rfl]
      simp only [replaceFirst]
      rw [removeFirst_count_ne (show ('k' : Char) ≠ 'Q' by decide),
        removeFirst_count_ne (show ('k' : Char) ≠ 'K' by decide)]
    · rw [e6, ht, if_pos rfl]
      simp only [replaceFirst]
      rw [removeFirst_count_ne (show ('q' : Char) ≠ 'Q' by decide),
        removeFirst_count_ne (show ('q' : Char) ≠ 'K' by decide)]

/-- Standard back-rank castle state: white king e1, rooks a1 and h1,
black king e8, rooks a8 and h8, all rights, white to move. -/
def backRankState : PuzzleState :=
  { baseState with
      pieces := fun sq =>
        if sq = "e1" then some 'K' else if sq = "a1" then some 'R'
        else if sq = "h1" then some 'R' else if sq = "e8" then some 'k'
        else if sq = "a8" then some 'r' else if sq = "h8" then some 'r'
        else none,
      castling := "KQkq" }

/-- Witness for the amended C4, at the spec's `e1g1` white kingside castle:
rook relocated h1 → f1 and both white rights cleared, black rights kept. -/
theorem executeCastling_spec_witness :
    isCastlingMove backRankState.pieces (homeSquare '1') (castleDst true '1') = true ∧
    (executeCastling backRankState (homeSquare '1') (castleDst true '1')).pieces
        (castleDst true '1') = some 'K' ∧
    (executeCastling backRankState (homeSquare '1') (castleDst true '1')).pieces
        (castleRookDst true '1') = some 'R' ∧
    (executeCastling backRankState (homeSquare '1') (castleDst true '1')).pieces
        (castleEdge true '1') = none ∧
    (executeCastling backRankState (homeSquare '1')
        (castleDst true '1')).castling.data.count 'K' = 0 ∧
    (executeCastling backRankState (homeSquare '1')
        (castleDst true '1')).castling.data.count 'Q' = 0 ∧
    (executeCastling backRankState (homeSquare '1')
        (castleDst true '1')).castling.data.count 'k' =
      backRankState.castling.data.count 'k' := by
  have h := executeCastling_spec backRankState true true '1' (by decide) (by decide)
    (by decide) (by decide) (by decide)
  exact ⟨h.1, h.2.1, h.2.2.2.1, h.2.2.2.2.1, h.2.2.2.2.2.2.1,
    h.2.2.2.2.2.2.2.1, h.2.2.2.2.2.2.2.2.1⟩

end Puzzles

namespace Puzzles

/-! ### C10 helper lemmas: every emitted target is an in-bounds `atIdx` -/

theorem addMove_mem {ps : String → Option Char} {isW : Bool} {f r : Int} {t : String}
    (ht : t ∈ addMove ps isW f r) :
    t = atIdx f r ∧ 0 ≤ f ∧ f < 8 ∧ 0 ≤ r ∧ r < 8 := by
  simp only [addMove] at ht
  split at ht
  case isTrue h =>
    refine ⟨?_, h.1, h.2.1, h.2.2.1, h.2.2.2⟩
    split at ht
    · simpa using ht
    · split at ht
      · simpa using ht
      · simp at ht
  case isFalse h => simp at ht

theorem addSlide_mem {ps : String → Option Char} {isW : Bool} {df dr : Int}
    (P : Int → Int → Prop) (hstep : ∀ f r, P f r → P (f + df) (r + dr)) :
    ∀ {fuel : Nat} {f r : Int} {t : String}, P f r →
      t ∈ addSlide ps isW df dr f r fuel →
      ∃ f' r', P f' r' ∧ t = atIdx f' r' ∧ 0 ≤ f' ∧ f' < 8 ∧ 0 ≤ r' ∧ r' < 8 := by
  intro fuel
  induction fuel with
  | zero => intro f r t _ ht; simp [addSlide] at ht
  | succ n ih =>
    intro f r t hP ht
    simp only [addSlide] at ht
    split at ht
    case isTrue h =>
      split at ht
      · rcases List.mem_cons.mp ht with rfl | htail
        · exact ⟨f, r, hP, rfl, h.1, h.2.1, h.2.2.1, h.2.2.2⟩
        · exact ih (hstep f r hP) htail
      · split at ht
        · have : t = atIdx f r := by simpa using ht
          exact ⟨f, r, hP, this, h.1, h.2.1, h.2.2.1, h.2.2.2⟩
        · simp at ht
    case isFalse h => simp at ht

theorem addMove_target_spec {ps : String → Option Char} {isW : Bool}
    {f0 r0 : Int} {d : Int × Int} (hdnz : ¬(d.1 = 0 ∧ d.2 = 0)) {t : String}
    (ht : t ∈ addMove ps isW (f0 + d.1) (r0 + d.2)) :
    ∃ f' r', t = atIdx f' r' ∧ 0 ≤ f' ∧ f' < 8 ∧ 0 ≤ r' ∧ r' < 8 ∧
      ¬(f' = f0 ∧ r' = r0) := by
  obtain ⟨hteq, b1, b2, b3, b4⟩ := addMove_mem ht
  refine ⟨f0 + d.1, r0 + d.2, hteq, b1, b2, b3, b4, ?_⟩
  rintro ⟨h1, h2⟩
  exact hdnz ⟨by omega, by omega⟩

theorem slide_target_spec {ps : String → Option Char} {isW : Bool}
    {f0 r0 : Int} {d : Int × Int} (hdnz : ¬(d.1 = 0 ∧ d.2 = 0)) {t : String}
    (ht : t ∈ addSlide ps isW d.1 d.2 (f0 + d.1) (r0 + d.2) 16) :
    ∃ f' r', t = atIdx f' r' ∧ 0 ≤ f' ∧ f' < 8 ∧ 0 ≤ r' ∧ r' < 8 ∧
      ¬(f' = f0 ∧ r' = r0) := by
  obtain ⟨f', r', hP, hteq, b1, b2, b3, b4⟩ :=
    addSlide_mem (fun f r => ∃ k : Int, 1 ≤ k ∧ f = f0 + k * d.1 ∧ r = r0 + k * d.2)
      (by rintro f r ⟨k, hk, rfl, rfl⟩
          exact ⟨k + 1, by omega, by ring, by ring⟩)
      ⟨1, le_refl 1, by ring, by ring⟩ ht
  obtain ⟨k, hk, rfl, rfl⟩ := hP
  refine ⟨_, _, hteq, b1, b2, b3, b4, ?_⟩
  rintro ⟨h1, h2⟩
  have e1 : k * d.1 = 0 := by linarith
  have e2 : k * d.2 = 0 := by linarith
  rcases mul_eq_zero.mp e1 with hk0 | hd1
  · omega
  · rcases mul_eq_zero.mp e2 with hk0 | hd2
    · omega
    · exact hdnz ⟨hd1, hd2⟩

theorem pawnCap_mem {ps : String → Option Char} {isW : Bool}
    {fileIdx fwdRank df : Int} {t : String}
    (ht : t ∈ pawnCap ps isW fileIdx fwdRank df) :
    t = atIdx (fileIdx + df) fwdRank ∧ 0 ≤ fileIdx + df ∧ fileIdx + df < 8 := by
  simp only [pawnCap] at ht
  split at ht
  case isTrue h =>
    refine ⟨?_, h.1, h.2⟩
    split at ht
    · split at ht
      · simpa using ht
      · simp at ht
    · simp at ht
  case isFalse h => simp at ht

theorem pawnMoves_spec {ps : String → Option Char} {isW : Bool}
    {f0 r0 : Int} (hb1 : 0 ≤ f0) (hb2 : f0 < 8) {t : String}
    (ht : t ∈ pawnMoves ps isW f0 r0) :
    ∃ f' r', t = atIdx f' r' ∧ 0 ≤ f' ∧ f' < 8 ∧ 0 ≤ r' ∧ r' < 8 ∧ r' ≠ r0 := by
  cases isW with
  | true =>
    simp only [pawnMoves, Bool.false_eq_true, if_true, if_false, reduceIte] at ht
    split at ht
    case isTrue h =>
      rcases List.mem_append.mp ht with hL | hR
      · split at hL
        case isTrue hfwd =>
          rcases List.mem_cons.mp hL with rfl | hL2
          · exact ⟨f0, r0 + 1, rfl, hb1, hb2, h.1, h.2, by omega⟩
          · split at hL2
            case isTrue hstart =>
              split at hL2
              case isTrue =>
                have hteq : t = atIdx f0 (r0 + 2 * 1) := by simpa using hL2
                exact ⟨f0, r0 + 2 * 1, hteq, hb1, hb2, by omega, by omega, by omega⟩
              case isFalse => simp at hL2
            case isFalse => simp at hL2
        case isFalse => simp at hL
      · rcases List.mem_append.mp hR with hc | hc
        · obtain ⟨hteq, hcb1, hcb2⟩ := pawnCap_mem hc
          exact ⟨f0 + (-1), r0 + 1, hteq, hcb1, hcb2, h.1, h.2, by omega⟩
        · obtain ⟨hteq, hcb1, hcb2⟩ := pawnCap_mem hc
          exact ⟨f0 + 1, r0 + 1, hteq, hcb1, hcb2, h.1, h.2, by omega⟩
    case isFalse h => simp at ht
  | false =>
    simp only [pawnMoves, Bool.false_eq_true, if_true, if_false, reduceIte] at ht
    split at ht
    case isTrue h =>
      rcases List.mem_append.mp ht with hL | hR
      · split at hL
        case isTrue hfwd =>
          rcases List.mem_cons.mp hL with rfl | hL2
          · exact ⟨f0, r0 + -1, rfl, hb1, hb2, h.1, h.2, by omega⟩
          · split at hL2
            case isTrue hstart =>
              split at hL2
              case isTrue =>
                have hteq : t = atIdx f0 (r0 + 2 * -1) := by simpa using hL2
                exact ⟨f0, r0 + 2 * -1, hteq, hb1, hb2, by omega, by omega, by omega⟩
              case isFalse => simp at hL2
            case isFalse => simp at hL2
        case isFalse => simp at hL
      · rcases List.mem_append.mp hR with hc | hc
        · obtain ⟨hteq, hcb1, hcb2⟩ := pawnCap_mem hc
          exact ⟨f0 + (-1), r0 + -1, hteq, hcb1, hcb2, h.1, h.2, by omega⟩
        · obtain ⟨hteq, hcb1, hcb2⟩ := pawnCap_mem hc
          exact ⟨f0 + 1, r0 + -1, hteq, hcb1, hcb2, h.1, h.2, by omega⟩
    case isFalse h => simp at ht

theorem castleMoves_mem {ps : String → Option Char} {cast : String} {isW : Bool}
    {file rank : Char} {t : String} (ht : t ∈ castleMoves ps cast isW file rank) :
    (file = 'e' ∧ rank = '1' ∧ (t = "g1" ∨ t = "c1")) ∨
    (file = 'e' ∧ rank = '8' ∧ (t = "g8" ∨ t = "c8")) := by
  simp only [castleMoves] at ht
  split at ht
  case isTrue h =>
    refine Or.inl ⟨h.2.2, h.2.1, ?_⟩
    rcases List.mem_append.mp ht with hL | hR
    · split at hL
      · exact Or.inl (by simpa using hL)
      · simp at hL
    · split at hR
      · exact Or.inr (by simpa using hR)
      · simp at hR
  case isFalse =>
    split at ht
    case isTrue h =>
      refine Or.inr ⟨h.2.2, h.2.1, ?_⟩
      rcases List.mem_append.mp ht with hL | hR
      · split at hL
        · exact Or.inl (by simpa using hL)
        · simp at hL
      · split at hR
        · exact Or.inr (by simpa using hR)
        · simp at hR
    case isFalse => simp at ht

/-- Closing step shared by all generator branches. -/
theorem conclude_wf_ne {f0 r0 f' r' : Int} {s : String}
    (hseq : s = atIdx f0 r0)
    (hf0 : 0 ≤ f0) (hf8 : f0 < 8) (hr0 : 0 ≤ r0) (hr8 : r0 < 8)
    (b1 : 0 ≤ f') (b2 : f' < 8) (b3 : 0 ≤ r') (b4 : r' < 8)
    (hne : ¬(f' = f0 ∧ r' = r0)) :
    wfSquareB (atIdx f' r') = true ∧ atIdx f' r' ≠ s := by
  refine ⟨wf_atIdx b1 b2 b3 b4, ?_⟩
  rw [hseq]
  intro heq
  exact hne ((atIdx_inj b1 b2 b3 b4 hf0 hf8 hr0 hr8).mp heq)

/-- C10: on any board, generating from a well-formed square yields only
well-formed squares (file a–h, rank 1–8), each distinct from the origin. -/
theorem generated_moves_wf_and_distinct :
    ∀ (ps : String → Option Char) (cast : String) (s : String),
      wfSquareB s = true →
      ∀ t ∈ getPseudoLegalMoves ps cast s, wfSquareB t = true ∧ t ≠ s := by
  intro ps cast s hs t ht
  obtain ⟨fc, rc, hd, hfc, hrc⟩ := wfSquareB_iff.mp hs
  obtain ⟨hf0, hf8, _⟩ := files_index hfc
  obtain ⟨hr0, hr8, _⟩ := ranks_index hrc
  have hseq : s = atIdx (indexOfJS FILES fc) (indexOfJS RANKS rc) :=
    wf_square_eq_atIdx hd hfc hrc
  cases hp : ps s with
  | none => simp [getPseudoLegalMoves, hp] at ht
  | some piece =>
    have hca0 : charAt s 0 = fc := by simp [charAt, hd]
    have hca1 : charAt s 1 = rc := by simp [charAt, hd]
    simp only [getPseudoLegalMoves, hp, hca0, hca1] at ht
    split at ht
    · -- pawn
      obtain ⟨f', r', hteq, b1, b2, b3, b4, hne⟩ := pawnMoves_spec hf0 hf8 ht
      subst hteq
      exact conclude_wf_ne hseq hf0 hf8 hr0 hr8 b1 b2 b3 b4 (fun hx => hne hx.2)
    · split at ht
      · -- knight
        obtain ⟨d, hdmem, hmem⟩ := List.mem_flatMap.mp ht
        have hdnz : ¬(d.1 = 0 ∧ d.2 = 0) := by
          have hall : ∀ x ∈ knightOffs, ¬(x.1 = 0 ∧ x.2 = 0) := by decide
          exact hall d hdmem
        obtain ⟨f', r', hteq, b1, b2, b3, b4, hne⟩ := addMove_target_spec hdnz hmem
        subst hteq
        exact conclude_wf_ne hseq hf0 hf8 hr0 hr8 b1 b2 b3 b4 hne
      · split at ht
        · -- bishop
          obtain ⟨d, hdmem, hmem⟩ := List.mem_flatMap.mp ht
          have hdnz : ¬(d.1 = 0 ∧ d.2 = 0) := by
            have hall : ∀ x ∈ bishopDirs, ¬(x.1 = 0 ∧ x.2 = 0) := by decide
            exact hall d hdmem
          obtain ⟨f', r', hteq, b1, b2, b3, b4, hne⟩ := slide_target_spec hdnz hmem
          subst hteq
          exact conclude_wf_ne hseq hf0 hf8 hr0 hr8 b1 b2 b3 b4 hne
        · split at ht
          · -- rook
            obtain ⟨d, hdmem, hmem⟩ := List.mem_flatMap.mp ht
            have hdnz : ¬(d.1 = 0 ∧ d.2 = 0) := by
              have hall : ∀ x ∈ rookDirs, ¬(x.1 = 0 ∧ x.2 = 0) := by decide
              exact hall d hdmem
            obtain ⟨f', r', hteq, b1, b2, b3, b4, hne⟩ := slide_target_spec hdnz hmem
            subst hteq
            exact conclude_wf_ne hseq hf0 hf8 hr0 hr8 b1 b2 b3 b4 hne
          · split at ht
            · -- queen
              obtain ⟨d, hdmem, hmem⟩ := List.mem_flatMap.mp ht
              have hdnz : ¬(d.1 = 0 ∧ d.2 = 0) := by
                have hall : ∀ x ∈ queenDirs, ¬(x.1 = 0 ∧ x.2 = 0) := by decide
                exact hall d hdmem
              obtain ⟨f', r', hteq, b1, b2, b3, b4, hne⟩ := slide_target_spec hdnz hmem
              subst hteq
              exact conclude_wf_ne hseq hf0 hf8 hr0 hr8 b1 b2 b3 b4 hne
            · split at ht
              · -- king
                rcases List.mem_append.mp ht with hK | hC
                · obtain ⟨d, hdmem, hmem⟩ := List.mem_flatMap.mp hK
                  have hdnz : ¬(d.1 = 0 ∧ d.2 = 0) := by
                    have hall : ∀ x ∈ kingOffs, ¬(x.1 = 0 ∧ x.2 = 0) := by decide
                    exact hall d hdmem
                  obtain ⟨f', r', hteq, b1, b2, b3, b4, hne⟩ :=
                    addMove_target_spec hdnz hmem
                  subst hteq
                  exact conclude_wf_ne hseq hf0 hf8 hr0 hr8 b1 b2 b3 b4 hne
                · rcases castleMoves_mem hC with ⟨hfe, hre, hT⟩ | ⟨hfe, hre, hT⟩ <;>
                    subst hfe <;> subst hre <;>
                  · rcases hT with rfl | rfl <;>
                      refine ⟨by decide, fun heq => ?_⟩ <;>
                    · have hgd := congrArg String.data heq
                      rw [hd] at hgd
                      exact absurd hgd (by decide)
              · simp at ht

end Puzzles

namespace Puzzles

/-- Witness for C10 on a lone-king board: the generated castle square `g1`
is well-formed and distinct from the origin `e1`. -/
theorem generated_moves_wf_and_distinct_witness :
    wfSquareB "g1" = true ∧ "g1" ≠ "e1" :=
  generated_moves_wf_and_distinct c7WhitePieces "KQkq" "e1" (by decide) "g1" (by decide)

end Puzzles
